import Mathlib

/-!
Verification of the FastLearn memory consolidation and retrieval engine.

The definitions below are a shallow embedding of the Python sources under
`src/`: Python dicts become association lists that keep insertion order
(setting an existing key keeps its position, a new key is appended, exactly
as CPython dicts behave), Python floats become rationals, Python ints become
integers, and fallible operations return `Except`/`Option`.  The theorems at
the end of the file settle the specification claims against these
definitions.
-/

namespace FastLearn

/-- A conversation turn, as the `{role, content}` dicts passed around by the
agents. -/
structure Message where
  role : String
  content : String
deriving Repr, DecidableEq

/-- A weak-point record: the dicts stored in `UserProfile.weak_points` and
produced by the summarizer (`{concept, confusion_score, last_confused,
subject, topic}`). -/
structure WeakPoint where
  concept : String
  confusion_score : Int
  last_confused : Option String
  subject : Option String
  topic : Option String
deriving Repr, DecidableEq

/-- Values stored in preference dicts (strings, booleans, numbers). -/
inductive PrefVal where
  | strV (s : String)
  | boolV (b : Bool)
  | numV (q : ℚ)
deriving Repr, DecidableEq

/-- A Python dict with string keys, as an insertion-ordered association
list. -/
abbrev Dict := List (String × PrefVal)

/-- Dict lookup (`d.get(k)` / `d[k]`). -/
def dictGet (d : Dict) (k : String) : Option PrefVal :=
  (d.find? (fun p => p.1 == k)).map Prod.snd

/-- Dict assignment `d[k] = v`: an existing key keeps its position, a new key
is appended (CPython dict semantics). -/
def dictSet : Dict → String → PrefVal → Dict
  | [], k, v => [(k, v)]
  | q :: d, k, v => if q.1 == k then (k, v) :: d else q :: dictSet d k v

/-- Python `d.update(delta)`: assign every key of `delta` in order. -/
def dictUpdate (d delta : Dict) : Dict :=
  delta.foldl (fun acc p => dictSet acc p.1 p.2) d

/-- One entry of the knowledge-graph map (crud.py, `update_knowledge_graph`
initialization). -/
structure KGEntry where
  mastery_level : ℚ
  last_reviewed : String
  interaction_count : Int
  confusion_score : Int
  subject : Option String
  topic : Option String
  difficulty : Option String
deriving Repr, DecidableEq

/-- The knowledge graph: a concept-keyed dict. -/
abbrev KnowledgeGraph := List (String × KGEntry)

/-- Knowledge-graph lookup. -/
def kgFind (kg : KnowledgeGraph) (c : String) : Option KGEntry :=
  (kg.find? (fun p => p.1 == c)).map Prod.snd

/-- Knowledge-graph assignment, with dict semantics. -/
def kgSet : KnowledgeGraph → String → KGEntry → KnowledgeGraph
  | [], c, e => [(c, e)]
  | q :: kg, c, e => if q.1 == c then (c, e) :: kg else q :: kgSet kg c e

/-- The argument bundle of one `update_knowledge_graph` call (crud.py 170-179):
concept, optional mastery delta, interaction delta (the Python default is 1),
optional confusion delta, optional metadata, and the wall-clock timestamp the
call would read from `datetime.utcnow()`. -/
structure KGUpdate where
  concept : String
  mastery_delta : Option ℚ
  interaction_delta : Int
  confusion_delta : Option Int
  subject : Option String
  topic : Option String
  difficulty : Option String
  now : String
deriving Repr, DecidableEq

/-- The entry created on first sight of a concept (crud.py 187-196). -/
def initKGEntry (u : KGUpdate) : KGEntry :=
  { mastery_level := 0
    last_reviewed := u.now
    interaction_count := 0
    confusion_score := 0
    subject := u.subject
    topic := u.topic
    difficulty := u.difficulty }

/-- The cumulative effect of the field mutations on one knowledge-graph
entry (crud.py 198-219): clamped mastery update when a mastery delta is
supplied, interaction-count increment, clamped confusion update when a
confusion delta is supplied, `last_reviewed` refresh, and metadata
overwritten only when provided.  The Python statements mutate disjoint
fields, so they are gathered into one record here. -/
def applyKGUpdate (u : KGUpdate) (e : KGEntry) : KGEntry :=
  { mastery_level := match u.mastery_delta with
      | some d => max 0 (min 1 (e.mastery_level + d))
      | none => e.mastery_level
    last_reviewed := u.now
    interaction_count := e.interaction_count + u.interaction_delta
    confusion_score := match u.confusion_delta with
      | some d => max 0 (min 100 (e.confusion_score + d))
      | none => e.confusion_score
    subject := match u.subject with | some s => some s | none => e.subject
    topic := match u.topic with | some t => some t | none => e.topic
    difficulty := match u.difficulty with | some d => some d | none => e.difficulty }

/-- The mutation phase of `update_knowledge_graph`: look the entry up (it is
present after the initialization phase) and store its updated value. -/
def kgUpsert (kg1 : KnowledgeGraph) (u : KGUpdate) : KnowledgeGraph :=
  match kgFind kg1 u.concept with
  | none => kg1
  | some e => kgSet kg1 u.concept (applyKGUpdate u e)

/-- Embedding of `update_knowledge_graph` (crud.py 170-225): initialize the
entry when the concept is unseen (crud.py 187-196), then apply the clamped
field updates to it. -/
def update_knowledge_graph (kg : KnowledgeGraph) (u : KGUpdate) : KnowledgeGraph :=
  kgUpsert
    (if (kgFind kg u.concept).isSome then kg else kgSet kg u.concept (initKGEntry u)) u

/-- Range invariant claimed for knowledge-graph entries: mastery in [0,1],
confusion in [0,100]. -/
def kgEntryInRange (e : KGEntry) : Prop :=
  0 ≤ e.mastery_level ∧ e.mastery_level ≤ 1 ∧ 0 ≤ e.confusion_score ∧ e.confusion_score ≤ 100

instance (e : KGEntry) : Decidable (kgEntryInRange e) := by
  unfold kgEntryInRange; infer_instance

/-- Every entry of the graph is in range. -/
def kgInRange (kg : KnowledgeGraph) : Prop := ∀ p ∈ kg, kgEntryInRange p.2

instance (kg : KnowledgeGraph) : Decidable (kgInRange kg) :=
  List.decidableBAll _ kg

/-- The statistics blob of a profile (crud.py 54-61 defaults). -/
structure Statistics where
  total_sessions : Int
  total_questions : Int
  active_days : Int
  avg_session_length : ℚ
  most_active_hour : Option Int
  last_active_date : Option String
deriving Repr, DecidableEq

/-- Round half to even, the tie-breaking rule of the Python builtin
`round`. -/
def roundHalfEven (q : ℚ) : Int :=
  let f := ⌊q⌋
  if q - f < 1/2 then f
  else if 1/2 < q - f then f + 1
  else if f % 2 = 0 then f else f + 1

/-- Python `round(q, 2)`. -/
def pyRound2 (q : ℚ) : ℚ := (roundHalfEven (q * 100) : ℚ) / 100

/-- Embedding of `increment_profile_statistics` (crud.py 118-167), acting on
the statistics blob.  Note that `old_total_sessions` is read before the
session increment, and that the stored average is rounded to two decimal
places. -/
def increment_profile_statistics (st : Statistics)
    (increment_sessions increment_questions increment_active_days : Bool)
    (session_length : Option ℚ) (now : String) : Statistics :=
  let old_total_sessions := st.total_sessions
  let st1 := if increment_sessions then
      { st with total_sessions := old_total_sessions + 1 } else st
  let st2 := if increment_questions then
      { st1 with total_questions := st1.total_questions + 1 } else st1
  let st3 := if increment_active_days then
      { st2 with active_days := st2.active_days + 1 } else st2
  let st4 := match session_length with
    | none => st3
    | some v =>
      let new_total_sessions := old_total_sessions + 1
      let current_avg := st.avg_session_length
      let new_avg := if 1 < new_total_sessions then
          (current_avg * old_total_sessions + v) / new_total_sessions
        else v
      { st3 with avg_session_length := pyRound2 new_avg }
  { st4 with last_active_date := some now }

/-- The concepts currently present in a weak-point list. -/
def conceptsOf (l : List WeakPoint) : List String := l.map WeakPoint.concept

/-- Membership test against the concept dict built at the start of
`update_weak_points` (crud.py 239). -/
def conceptTracked (tracked : List WeakPoint) (c : String) : Bool :=
  tracked.any (fun w => w.concept == c)

/-- The conditional in-place mutation of one tracked weak point
(crud.py 246-249): overwrite score and last_confused only when the new score
is strictly greater; an absent new `last_confused` falls back to the current
timestamp `now`. -/
def touchWeakPoint (now : String) (o w : WeakPoint) : WeakPoint :=
  if w.confusion_score < o.confusion_score then
    { w with confusion_score := o.confusion_score
             last_confused := some (o.last_confused.getD now) }
  else w

/-- Apply `touchWeakPoint` to the last element of the list whose concept
matches the observation: the dict comprehension on crud.py 239 maps each
concept to its last occurrence, and the loop mutates that dict entry in
place. -/
def updateLastMatch (now : String) (o : WeakPoint) : List WeakPoint → List WeakPoint
  | [] => []
  | w :: l =>
    if conceptTracked l o.concept then w :: updateLastMatch now o l
    else if w.concept == o.concept then touchWeakPoint now o w :: l
    else w :: updateLastMatch now o l

/-- The merge loop of `update_weak_points` (crud.py 241-252).  `tracked` holds
the elements that were in the profile when the concept dict was built (their
concepts never change, so dict membership can be tested against them), and
`appended` holds the observations appended so far; appended entries are
invisible to the membership test, exactly as in the Python code. -/
def mergeBatch (now : String) :
    List WeakPoint → List WeakPoint → List WeakPoint → List WeakPoint × List WeakPoint
  | tracked, appended, [] => (tracked, appended)
  | tracked, appended, o :: rest =>
    if conceptTracked tracked o.concept then
      mergeBatch now (updateLastMatch now o tracked) appended rest
    else
      mergeBatch now tracked (appended ++ [o]) rest

/-- Descending order on confusion scores, the key order of the final
`list.sort(key=..., reverse=True)` (crud.py 255). -/
def wpGE (a b : WeakPoint) : Prop := b.confusion_score ≤ a.confusion_score

instance : DecidableRel wpGE := fun a b =>
  inferInstanceAs (Decidable (b.confusion_score ≤ a.confusion_score))

instance : IsTotal WeakPoint wpGE :=
  ⟨fun a b => le_total b.confusion_score a.confusion_score⟩

instance : IsTrans WeakPoint wpGE :=
  ⟨fun _ _ _ hab hbc => le_trans hbc hab⟩

/-- The stable descending sort of crud.py 255.  Python `list.sort` is stable,
and `List.insertionSort` with a total preorder is the stable sort for that
preorder, so the two agree on every input. -/
def sortWeakPoints (l : List WeakPoint) : List WeakPoint :=
  List.insertionSort wpGE l

/-- Embedding of `update_weak_points` (crud.py 228-261), acting on the
weak-point list of the profile. -/
def update_weak_points (now : String) (weak_points obs : List WeakPoint) :
    List WeakPoint :=
  let p := mergeBatch now weak_points [] obs
  sortWeakPoints (p.1 ++ p.2)

/-- A user profile row (models/profile.py together with the defaults of
`create_user_profile` in crud.py and `get_or_create_profile` in
database.py). -/
structure Profile where
  user_id : String
  preferences : Dict
  statistics : Statistics
  knowledge_graph : KnowledgeGraph
  interests : List String
  weak_points : List WeakPoint
deriving Repr, DecidableEq

/-- The default preference map (crud.py 42-49, identical in
database.py 194-201). -/
def defaultPreferences : Dict :=
  [("learning_style", .strV "textual"),
   ("difficulty_preference", .strV "intermediate"),
   ("language", .strV "zh-CN"),
   ("include_code", .boolV true),
   ("include_math", .boolV true),
   ("response_format", .strV "html")]

/-- The default statistics blob (crud.py 54-61). -/
def defaultStatistics : Statistics :=
  { total_sessions := 0
    total_questions := 0
    active_days := 0
    avg_session_length := 0
    most_active_hour := none
    last_active_date := none }

/-- Embedding of `create_user_profile` called with no explicit preferences
(crud.py 36-70): a fresh profile with the documented defaults. -/
def create_user_profile (uid : String) : Profile :=
  { user_id := uid
    preferences := defaultPreferences
    statistics := defaultStatistics
    knowledge_graph := []
    interests := []
    weak_points := [] }

/-- The profile table, keyed by user_id. -/
abbrev Store := List (String × Profile)

/-- Embedding of `get_user_profile` (crud.py 31-33): the row query by
user_id. -/
def get_user_profile (store : Store) (uid : String) : Option Profile :=
  (store.find? (fun p => p.1 == uid)).map Prod.snd

/-- Write a profile row into the store (insert or overwrite by user_id). -/
def storePut : Store → String → Profile → Store
  | [], uid, p => [(uid, p)]
  | q :: s, uid, p => if q.1 == uid then (uid, p) :: s else q :: storePut s uid p

/-- Embedding of `get_or_create_profile` (database.py 176-219): returns the
profile, a created flag, and the resulting store. -/
def get_or_create_profile (store : Store) (uid : String) :
    Profile × Bool × Store :=
  match get_user_profile store uid with
  | some p => (p, false, store)
  | none =>
    let p := create_user_profile uid
    (p, true, storePut store uid p)

/-- Embedding of `update_profile_preferences` (crud.py 98-115): fetch or
create the profile, then `profile.preferences.update(preferences_delta)`. -/
def update_profile_preferences (store : Store) (uid : String) (delta : Dict) :
    Profile × Store :=
  let fetched := match get_user_profile store uid with
    | some p => (p, store)
    | none =>
      let p := create_user_profile uid
      (p, storePut store uid p)
  let p1 := { fetched.1 with preferences := dictUpdate fetched.1.preferences delta }
  (p1, storePut fetched.2 uid p1)

/-- The confidence read in `ProfileAgent.process` (profile_agent.py 61):
`preferences.get("confidence", 0)`.  A missing or non-numeric value is
modelled as 0. -/
def getConfidence (d : Dict) : ℚ :=
  match dictGet d "confidence" with
  | some (.numV q) => q
  | _ => 0

/-- Embedding of the store-mutating part of `ProfileAgent.process`
(profile_agent.py 54-62): fetch or create the profile, then overwrite the
preferences with the inferred dict only when its confidence is above 0.5.
The `inferred` argument is the dict produced by `_infer_preferences`, which
is empty on any inference failure. -/
def profileAgentProcess (store : Store) (uid : String) (inferred : Dict) : Store :=
  let g := get_or_create_profile store uid
  if 1/2 < getConfidence inferred then
    (update_profile_preferences g.2.2 uid inferred).2
  else g.2.2

/-- A summary object as produced by `SummarizerAgent._generate_summary`
(both on the parse-success path and the default path). -/
structure SummaryData where
  core_topic : String
  key_points : List String
  resolved_questions : List String
  unresolved_questions : List String
  user_preferences : Dict
  weak_points : List WeakPoint
  subject : Option String
  topic : Option String
  difficulty : Option String
  recent_messages : List Message
  message_count : Int
  token_count : Int
deriving Repr, DecidableEq

/-- Python `l[-n:]`: the last `n` elements, except that `l[-0:]` is the whole
list. -/
def pyTail (n : Nat) (l : List Message) : List Message :=
  if n == 0 then l else l.drop (l.length - n)

/-- Embedding of `_get_default_summary` (summarizer_agent.py 204-230): the
deterministic fallback summary. -/
def get_default_summary (messages : List Message) : SummaryData :=
  { core_topic := "学习对话"
    key_points := ["讨论了相关概念", "进行了一些问题解答"]
    resolved_questions := []
    unresolved_questions := []
    user_preferences :=
      [("learning_style", .strV "textual"),
       ("difficulty_preference", .strV "intermediate"),
       ("include_code", .boolV true),
       ("include_math", .boolV true)]
    weak_points := []
    subject := none
    topic := none
    difficulty := none
    recent_messages := if 5 < messages.length then pyTail 5 messages else messages
    message_count := messages.length
    token_count := 0 }

/-- Modelled from the spec: the language-model collaborator
(`BaseAgent.call_llm`, whose source is not in the repository) is a black-box
call that either returns a response document or fails; per the spec it is
"prompt → JSON document or failure", and its failure reaches the Python
caller as an exception (both sibling agents, profile_agent.py 92-108 and
retrieval_agent.py 155-175, wrap the call in try/except for exactly this
reason).  A call outcome is therefore an `Except`: `.error` is a raising
call, `.ok` a returned response string. -/
abbrev LlmOutcome := Except String String

/-- Embedding of `_generate_summary` (summarizer_agent.py 150-193).  The
`call_llm` invocation on line 172 is outside any try block, so a failing call
propagates (`.error`); only the JSON decoding that follows is guarded, and a
decoding failure yields the default summary.  `parse` stands for
`json.loads` projected onto the summary fields: `none` models a
`JSONDecodeError`. -/
def generate_summary (messages : List Message) (keep_recent : Nat)
    (llm : LlmOutcome) (parse : String → Option SummaryData) :
    Except String SummaryData :=
  match llm with
  | .error e => .error e
  | .ok response =>
    match parse response with
    | some s =>
      .ok { s with
            recent_messages :=
              if keep_recent < messages.length then pyTail keep_recent messages
              else messages
            message_count := messages.length }
    | none => .ok (get_default_summary messages)

/-- The statistics arguments computed in `_update_user_profile`
(summarizer_agent.py 256-269): always increment sessions and active days,
increment questions only when the summary carries at least one resolved or
unresolved question, and supply the summary message count as the session
length. -/
def update_user_profile_statistics (st : Statistics) (s : SummaryData)
    (now : String) : Statistics :=
  increment_profile_statistics st true
    (0 < s.resolved_questions.length + s.unresolved_questions.length) true
    (some (s.message_count : ℚ)) now

/-- The JSON object requested from the retrieval call, read back through the
`.get` defaults of `RetrievalAgent.process` (retrieval_agent.py 85-86). -/
structure RetrievalResult where
  suggested_context : String
  relevant_memories : List String
  follow_up_suggestions : List String
deriving Repr, DecidableEq

/-- A stored session summary row as consumed by `_format_summaries`
(retrieval_agent.py 91-108). -/
structure SummaryRow where
  session_id : String
  created_at : Option String
  core_topic : String
  key_points : List String
  resolved_questions : List String
  unresolved_questions : List String
deriving Repr, DecidableEq

/-- The rendering of one summary (retrieval_agent.py 98-106). -/
def formatOneSummary (s : SummaryRow) : String :=
  "会话ID: " ++ s.session_id ++ "\n日期: " ++ s.created_at.getD "N/A" ++
  "\n核心主题: " ++ s.core_topic ++
  "\n关键知识点: " ++ String.intercalate ", " (s.key_points.take 3) ++
  "\n已解决问题: " ++ String.intercalate ", " (s.resolved_questions.take 2) ++
  "\n未解决问题: " ++ String.intercalate ", " (s.unresolved_questions.take 2) ++
  "\n---"

/-- Embedding of `_format_summaries` (retrieval_agent.py 91-108). -/
def formatSummaries (summaries : List SummaryRow) : String :=
  if summaries.isEmpty then "暂无历史记忆"
  else String.intercalate "\n\n" (summaries.map formatOneSummary)

/-- Character-list prefix agreement: the first list is an initial segment of
the second. -/
def charsAgree : List Char → List Char → Bool
  | [], _ => true
  | _ :: _, [] => false
  | c :: cs, d :: ds => c == d && charsAgree cs ds

/-- Occurrence of `sub` as a contiguous run inside `s`. -/
def charsOccur (sub : List Char) : List Char → Bool
  | [] => sub.isEmpty
  | d :: ds => charsAgree sub (d :: ds) || charsOccur sub ds

/-- Python `sub in s` for strings, as substring occurrence on the character
lists. -/
def strContainsSub (s sub : String) : Bool :=
  charsOccur sub.data s.data

/-- String rendering of a preference value inside an f-string. -/
def prefValToString : PrefVal → String
  | .strV s => s
  | .boolV b => if b then "True" else "False"
  | .numV q => toString q

/-- Python truthiness of an optional dict value, as used by
`preferences.get("include_code")` in a condition. -/
def prefTruthy : Option PrefVal → Bool
  | none => false
  | some (.strV s) => s ≠ ""
  | some (.boolV b) => b
  | some (.numV q) => q ≠ 0

/-- The learning-style display map (retrieval_agent.py 185-191), with the
dict `.get(key, key)` fallback. -/
def styleName (s : String) : String :=
  if s == "visual" then "视觉型学习者（偏好图表、图像）"
  else if s == "textual" then "文字型学习者（偏好文字解释）"
  else if s == "hands_on" then "动手型学习者（偏好实践操作）"
  else if s == "code_first" then "代码优先学习者（偏好先看代码示例）"
  else s

/-- The difficulty display map (retrieval_agent.py 195-200). -/
def difficultyName (s : String) : String :=
  if s == "beginner" then "初学者"
  else if s == "intermediate" then "中级"
  else if s == "advanced" then "高级"
  else s

/-- The preference dict of the profile dict handed to `_get_basic_context`:
`process` passes `profile_obj.to_dict()` when a row exists and `{}` otherwise
(retrieval_agent.py 66-67), so an absent profile reads as an empty dict. -/
def profilePreferences : Option Profile → Dict
  | some p => p.preferences
  | none => []

/-- The weak-point list read from the profile dict, `[]` when absent. -/
def profileWeakPoints : Option Profile → List WeakPoint
  | some p => p.weak_points
  | none => []

/-- Embedding of `_get_basic_context` (retrieval_agent.py 177-215): the
deterministic, LLM-free context built from the profile alone. -/
def get_basic_context (profile : Option Profile) : String :=
  let preferences := profilePreferences profile
  let part1 := "- 学习风格：" ++
    styleName (prefValToString ((dictGet preferences "learning_style").getD (.strV "textual")))
  let part2 := "- 难度偏好：" ++
    difficultyName (prefValToString ((dictGet preferences "difficulty_preference").getD (.strV "intermediate")))
  let parts := [part1, part2]
  let parts := parts ++
    (if prefTruthy (dictGet preferences "include_code") then ["- 喜欢包含代码示例"] else [])
  let parts := parts ++
    (if prefTruthy (dictGet preferences "include_math") then ["- 可以包含数学公式"] else [])
  let wps := profileWeakPoints profile
  let parts := parts ++
    (if wps.isEmpty then [] else
      ["- 薄弱知识点：" ++ String.intercalate ", "
        ((wps.take 3).map (fun wp =>
          wp.concept ++ "（困惑度" ++ toString wp.confusion_score ++ "）"))])
  if parts.isEmpty then "新用户，暂无画像信息"
  else "## 用户画像\n" ++ String.intercalate "\n" parts

/-- The fallback dict built on the no-memory and failure paths of
`_generate_context` (retrieval_agent.py 120-124 and 171-175). -/
def basicResult (profile : Option Profile) : RetrievalResult :=
  { suggested_context := get_basic_context profile
    relevant_memories := []
    follow_up_suggestions := [] }

/-- The value of `_generate_context` together with whether the language-model
collaborator was invoked on that path. -/
structure ContextOutcome where
  result : RetrievalResult
  llm_called : Bool
deriving Repr, DecidableEq

/-- Embedding of `_generate_context` (retrieval_agent.py 110-175): the
no-memory check short-circuits to the basic context without touching the
collaborator; otherwise the call and the JSON decoding run inside one
try/except whose handler also returns the basic context.  `parse` stands for
`json.loads` projected through the `.get` defaults of the caller. -/
def generate_context (profile : Option Profile) (memories_text : String)
    (llm : LlmOutcome) (parse : String → Option RetrievalResult) :
    ContextOutcome :=
  if memories_text == "" || strContainsSub memories_text "暂无历史记忆" then
    { result := basicResult profile, llm_called := false }
  else
    match llm with
    | .error _ => { result := basicResult profile, llm_called := true }
    | .ok response =>
      match parse response with
      | some r => { result := r, llm_called := true }
      | none => { result := basicResult profile, llm_called := true }

/-- The dict returned by `RetrievalAgent.process` (retrieval_agent.py 83-89).
`user_profile = none` models the empty dict used when no row exists. -/
structure RetrievalOutput where
  success : Bool
  context : String
  source_memories : List String
  user_profile : Option Profile
  weak_points : List WeakPoint
deriving Repr, DecidableEq

/-- Embedding of `RetrievalAgent.process` (retrieval_agent.py 43-89): fetch
the profile (falling back to an empty dict, with no creation), fetch the
summaries in the lookback window (taken here as the `summaries` argument),
render them, generate the context, and assemble the result dict. -/
def retrievalProcess (store : Store) (uid : String)
    (summaries : List SummaryRow) (llm : LlmOutcome)
    (parse : String → Option RetrievalResult) : RetrievalOutput :=
  let profile := get_user_profile store uid
  let memories_text := formatSummaries summaries
  let ctx := generate_context profile memories_text llm parse
  { success := true
    context := ctx.result.suggested_context
    source_memories := ctx.result.relevant_memories
    user_profile := profile
    weak_points := profileWeakPoints profile }

/-!
Helper lemmas and the claim theorems.
-/

lemma touch_concept (now : String) (o w : WeakPoint) :
    (touchWeakPoint now o w).concept = w.concept := by
  unfold touchWeakPoint; split <;> rfl

lemma touch_score (now : String) (o w : WeakPoint) :
    (touchWeakPoint now o w).confusion_score = max w.confusion_score o.confusion_score := by
  unfold touchWeakPoint
  split
  · next h => exact (max_eq_right (le_of_lt h)).symm
  · next h => exact (max_eq_left (not_lt.mp h)).symm

lemma conceptTracked_iff (l : List WeakPoint) (c : String) :
    conceptTracked l c = true ↔ c ∈ conceptsOf l := by
  simp [conceptTracked, conceptsOf, List.any_eq_true, List.mem_map]

lemma updateLastMatch_id (now : String) (o : WeakPoint) :
    ∀ l : List WeakPoint, o.concept ∉ conceptsOf l → updateLastMatch now o l = l := by
  intro l
  induction l with
  | nil => intro _; rfl
  | cons w t ih =>
    intro h
    have hw : w.concept ≠ o.concept := by
      intro he; exact h (by simp [conceptsOf, he])
    have ht : o.concept ∉ conceptsOf t := by
      intro hm; exact h (by simp [conceptsOf] at hm ⊢; exact Or.inr hm)
    have htr : conceptTracked t o.concept = false := by
      rw [← Bool.not_eq_true, conceptTracked_iff]; exact ht
    unfold updateLastMatch
    rw [htr]
    simp [hw, ih ht]

lemma mapIf_id (now : String) (o : WeakPoint) :
    ∀ l : List WeakPoint, o.concept ∉ conceptsOf l →
      l.map (fun w => if w.concept = o.concept then touchWeakPoint now o w else w) = l := by
  intro l
  induction l with
  | nil => intro _; rfl
  | cons w t ih =>
    intro h
    have hw : w.concept ≠ o.concept := by
      intro he; exact h (by simp [conceptsOf, he])
    have ht : o.concept ∉ conceptsOf t := by
      intro hm; exact h (by simp [conceptsOf] at hm ⊢; exact Or.inr hm)
    simp [hw, ih ht]

lemma updateLastMatch_eq_map (now : String) (o : WeakPoint) :
    ∀ l : List WeakPoint, (conceptsOf l).Nodup →
      updateLastMatch now o l =
        l.map (fun w => if w.concept = o.concept then touchWeakPoint now o w else w) := by
  intro l
  induction l with
  | nil => intro _; rfl
  | cons w t ih =>
    intro hnd
    have hnd' : (conceptsOf t).Nodup := by
      simpa [conceptsOf] using hnd.of_cons
    have hwt : w.concept ∉ conceptsOf t := by
      have h2 := hnd
      simp only [conceptsOf, List.map_cons, List.nodup_cons] at h2
      simpa [conceptsOf] using h2.1
    by_cases htr : o.concept ∈ conceptsOf t
    · have h1 : conceptTracked t o.concept = true := (conceptTracked_iff t o.concept).mpr htr
      have hw : w.concept ≠ o.concept := fun he => hwt (he ▸ htr)
      unfold updateLastMatch
      rw [h1]
      simp [hw, ih hnd']
    · have h1 : conceptTracked t o.concept = false := by
        rw [← Bool.not_eq_true, conceptTracked_iff]; exact htr
      unfold updateLastMatch
      rw [h1]
      by_cases hw : w.concept = o.concept
      · simp [hw, mapIf_id now o t htr]
      · simp [hw, ih hnd']

lemma updateLastMatch_concepts (now : String) (o : WeakPoint) :
    ∀ l : List WeakPoint, conceptsOf (updateLastMatch now o l) = conceptsOf l := by
  intro l
  induction l with
  | nil => rfl
  | cons w t ih =>
    unfold updateLastMatch
    by_cases h1 : conceptTracked t o.concept = true
    · simp only [h1, if_true, conceptsOf, List.map_cons]
      simpa [conceptsOf] using ih
    · rw [Bool.not_eq_true] at h1
      rw [h1]
      simp only [Bool.false_eq_true, if_false]
      by_cases hw : w.concept == o.concept
      · simp only [hw, if_true]
        simp [conceptsOf, touch_concept]
      · simp only [Bool.not_eq_true] at hw
        rw [hw]
        simp only [Bool.false_eq_true, if_false, conceptsOf, List.map_cons]
        simpa [conceptsOf] using ih

lemma update_weak_points_single (now : String) (wps : List WeakPoint) (o : WeakPoint) :
    update_weak_points now wps [o] =
      if conceptTracked wps o.concept then sortWeakPoints (updateLastMatch now o wps)
      else sortWeakPoints (wps ++ [o]) := by
  unfold update_weak_points mergeBatch
  split
  · simp [mergeBatch]
  · simp [mergeBatch]

lemma sortWeakPoints_perm (l : List WeakPoint) : List.Perm (sortWeakPoints l) l :=
  List.perm_insertionSort wpGE l

lemma sorted_sortWeakPoints (l : List WeakPoint) : List.Sorted wpGE (sortWeakPoints l) :=
  List.sorted_insertionSort wpGE l

lemma merge_single_tracked (now : String) (wps : List WeakPoint) (o : WeakPoint)
    (hnd : (conceptsOf wps).Nodup) (h : o.concept ∈ conceptsOf wps) :
    List.Perm (update_weak_points now wps [o])
      (wps.map (fun w => if w.concept = o.concept then touchWeakPoint now o w else w)) := by
  rw [update_weak_points_single, if_pos ((conceptTracked_iff wps o.concept).mpr h)]
  refine List.Perm.trans (sortWeakPoints_perm _) ?_
  rw [updateLastMatch_eq_map now o wps hnd]

lemma merge_single_new (now : String) (wps : List WeakPoint) (o : WeakPoint)
    (h : o.concept ∉ conceptsOf wps) :
    List.Perm (update_weak_points now wps [o]) (wps ++ [o]) := by
  rw [update_weak_points_single, if_neg]
  · exact sortWeakPoints_perm _
  · rw [conceptTracked_iff]; exact h

lemma concept_mem_update_single (now : String) (wps : List WeakPoint) (o : WeakPoint) :
    o.concept ∈ conceptsOf (update_weak_points now wps [o]) := by
  rw [update_weak_points_single]
  by_cases h : conceptTracked wps o.concept = true
  · rw [if_pos h]
    have hp : List.Perm (conceptsOf (sortWeakPoints (updateLastMatch now o wps)))
        (conceptsOf (updateLastMatch now o wps)) :=
      (sortWeakPoints_perm _).map WeakPoint.concept
    rw [hp.mem_iff, updateLastMatch_concepts]
    exact (conceptTracked_iff wps o.concept).mp h
  · rw [Bool.not_eq_true] at h
    rw [h]
    simp only [Bool.false_eq_true, if_false]
    have hp : List.Perm (conceptsOf (sortWeakPoints (wps ++ [o]))) (conceptsOf (wps ++ [o])) :=
      (sortWeakPoints_perm _).map WeakPoint.concept
    rw [hp.mem_iff]
    simp [conceptsOf]

lemma score_ge_update_single (now : String) (wps : List WeakPoint) (o : WeakPoint)
    (hnd : (conceptsOf wps).Nodup) :
    ∀ w ∈ update_weak_points now wps [o], w.concept = o.concept →
      o.confusion_score ≤ w.confusion_score := by
  intro w hw hc
  by_cases h : o.concept ∈ conceptsOf wps
  · have hperm := merge_single_tracked now wps o hnd h
    rw [hperm.mem_iff] at hw
    obtain ⟨w0, hw0, heq⟩ := List.mem_map.mp hw
    by_cases h0 : w0.concept = o.concept
    · rw [if_pos h0] at heq
      rw [← heq, touch_score]
      exact le_max_right _ _
    · rw [if_neg h0] at heq
      exact absurd (heq ▸ hc) h0
  · have hperm := merge_single_new now wps o h
    rw [hperm.mem_iff, List.mem_append] at hw
    rcases hw with hw | hw
    · exact absurd (hc ▸ List.mem_map_of_mem WeakPoint.concept hw) h
    · simp only [List.mem_singleton] at hw
      rw [hw]

lemma updateLastMatch_noop (now : String) (o : WeakPoint) :
    ∀ l : List WeakPoint,
      (∀ w ∈ l, w.concept = o.concept → touchWeakPoint now o w = w) →
      updateLastMatch now o l = l := by
  intro l
  induction l with
  | nil => intro _; rfl
  | cons w t ih =>
    intro h
    unfold updateLastMatch
    by_cases h1 : conceptTracked t o.concept = true
    · rw [h1]
      simp only [if_true]
      rw [ih (fun w' hw' => h w' (List.mem_cons_of_mem w hw'))]
    · rw [Bool.not_eq_true] at h1
      rw [h1]
      simp only [Bool.false_eq_true, if_false]
      by_cases hw : w.concept == o.concept
      · rw [hw]
        simp only [if_true]
        rw [h w (List.mem_cons_self w t) (by simpa using hw)]
      · simp only [Bool.not_eq_true] at hw
        rw [hw]
        simp only [Bool.false_eq_true, if_false]
        rw [ih (fun w' hw' => h w' (List.mem_cons_of_mem w hw'))]

lemma nodup_concepts_update_single (now : String) (wps : List WeakPoint) (o : WeakPoint)
    (hnd : (conceptsOf wps).Nodup) :
    (conceptsOf (update_weak_points now wps [o])).Nodup := by
  show (List.map WeakPoint.concept (update_weak_points now wps [o])).Nodup
  by_cases h : o.concept ∈ conceptsOf wps
  · have hperm := (merge_single_tracked now wps o hnd h).map WeakPoint.concept
    rw [List.Perm.nodup_iff hperm]
    have : conceptsOf (wps.map (fun w => if w.concept = o.concept then touchWeakPoint now o w else w)) = conceptsOf wps := by
      unfold conceptsOf
      rw [List.map_map]
      apply List.map_congr_left
      intro w _
      by_cases hw : w.concept = o.concept
      · simp [hw, touch_concept]
      · simp [hw]
    rw [show (wps.map (fun w => if w.concept = o.concept then touchWeakPoint now o w else w)).map WeakPoint.concept = conceptsOf (wps.map (fun w => if w.concept = o.concept then touchWeakPoint now o w else w)) from rfl, this]
    exact hnd
  · have hperm := (merge_single_new now wps o h).map WeakPoint.concept
    rw [List.Perm.nodup_iff hperm]
    have : (wps ++ [o]).map WeakPoint.concept = conceptsOf wps ++ [o.concept] := by
      simp [conceptsOf]
    rw [this]
    exact List.Nodup.append hnd (List.nodup_singleton _) (by
      intro c hc hc2
      simp only [List.mem_singleton] at hc2
      exact h (hc2 ▸ hc))

lemma idempotent_second_merge (now : String) (wps : List WeakPoint) (o : WeakPoint)
    (hnd : (conceptsOf wps).Nodup) :
    update_weak_points now (update_weak_points now wps [o]) [o] =
      update_weak_points now wps [o] := by
  set L := update_weak_points now wps [o] with hL
  have hsorted : List.Sorted wpGE L := by
    rw [hL, update_weak_points_single]
    split <;> exact sorted_sortWeakPoints _
  have hmem : o.concept ∈ conceptsOf L := concept_mem_update_single now wps o
  have hnoop : updateLastMatch now o L = L := by
    apply updateLastMatch_noop
    intro w hw hc
    have hle := score_ge_update_single now wps o hnd w hw hc
    unfold touchWeakPoint
    rw [if_neg (not_lt.mpr hle)]
  rw [update_weak_points_single, if_pos ((conceptTracked_iff L o.concept).mpr hmem), hnoop]
  exact List.Sorted.insertionSort_eq hsorted

lemma mergeBatch_nodup (now : String) :
    ∀ (obs t a : List WeakPoint),
      (conceptsOf t).Nodup → (conceptsOf a).Nodup →
      (∀ c ∈ conceptsOf a, c ∉ conceptsOf t) →
      (conceptsOf obs).Nodup →
      (∀ c ∈ conceptsOf obs, c ∉ conceptsOf a) →
      (conceptsOf ((mergeBatch now t a obs).1 ++ (mergeBatch now t a obs).2)).Nodup := by
  intro obs
  induction obs with
  | nil =>
    intro t a h1 h2 h3 _ _
    unfold mergeBatch
    simp only [conceptsOf, List.map_append]
    exact List.Nodup.append h1 h2 (fun c hc hc2 => h3 c hc2 hc)
  | cons o rest ih =>
    intro t a h1 h2 h3 h4 h5
    have h4r : (conceptsOf rest).Nodup := by
      simp only [conceptsOf, List.map_cons, List.nodup_cons] at h4
      exact h4.2
    have h4o : o.concept ∉ conceptsOf rest := by
      simp only [conceptsOf, List.map_cons, List.nodup_cons] at h4
      exact h4.1
    unfold mergeBatch
    by_cases htr : conceptTracked t o.concept = true
    · rw [htr]
      simp only [if_true]
      apply ih (updateLastMatch now o t) a
      · rw [updateLastMatch_concepts]; exact h1
      · exact h2
      · intro c hc; rw [updateLastMatch_concepts]; exact h3 c hc
      · exact h4r
      · intro c hc
        exact h5 c (by simp only [conceptsOf, List.map_cons]; exact List.mem_cons_of_mem _ hc)
    · rw [Bool.not_eq_true] at htr
      rw [htr]
      simp only [Bool.false_eq_true, if_false]
      apply ih t (a ++ [o])
      · exact h1
      · simp only [conceptsOf, List.map_append]
        refine List.Nodup.append h2 (List.nodup_singleton _) ?_
        intro c hc hc2
        simp only [List.map_cons, List.map_nil, List.mem_singleton] at hc2
        exact h5 c (by simp [conceptsOf, hc2]) hc
      · intro c hc
        simp only [conceptsOf, List.map_append] at hc
        rcases List.mem_append.mp hc with hc | hc
        · exact h3 c hc
        · simp only [List.map_cons, List.map_nil, List.mem_singleton] at hc
          subst hc
          rw [← conceptTracked_iff, htr]
          exact Bool.false_ne_true
      · exact h4r
      · intro c hc hc2
        simp only [conceptsOf, List.map_append] at hc2
        rcases List.mem_append.mp hc2 with hc2 | hc2
        · exact h5 c (by simp only [conceptsOf, List.map_cons]; exact List.mem_cons_of_mem _ hc) hc2
        · simp only [List.map_cons, List.map_nil, List.mem_singleton] at hc2
          exact h4o (hc2 ▸ hc)

lemma sorted_update_weak_points (now : String) (wps obs : List WeakPoint) :
    List.Sorted wpGE (update_weak_points now wps obs) :=
  sorted_sortWeakPoints _

lemma nodup_update_weak_points (now : String) (wps obs : List WeakPoint)
    (h1 : (conceptsOf wps).Nodup) (h2 : (conceptsOf obs).Nodup) :
    (conceptsOf (update_weak_points now wps obs)).Nodup := by
  show (List.map WeakPoint.concept (update_weak_points now wps obs)).Nodup
  have hperm := (sortWeakPoints_perm ((mergeBatch now wps [] obs).1 ++ (mergeBatch now wps [] obs).2)).map WeakPoint.concept
  rw [show update_weak_points now wps obs = sortWeakPoints ((mergeBatch now wps [] obs).1 ++ (mergeBatch now wps [] obs).2) from rfl]
  rw [List.Perm.nodup_iff hperm]
  exact mergeBatch_nodup now obs wps [] h1 List.nodup_nil (by simp [conceptsOf]) h2 (by simp [conceptsOf])

lemma touch_last_confused_lt (now : String) (o w : WeakPoint)
    (h : w.confusion_score < o.confusion_score) :
    (touchWeakPoint now o w).last_confused = some (o.last_confused.getD now) := by
  unfold touchWeakPoint; rw [if_pos h]

lemma touch_last_confused_ge (now : String) (o w : WeakPoint)
    (h : ¬ w.confusion_score < o.confusion_score) :
    (touchWeakPoint now o w).last_confused = w.last_confused := by
  unfold touchWeakPoint; rw [if_neg h]

/-- Claim C2, corrected.  For a single-observation weak-point merge on a
profile with unique concepts: when the concept is already tracked, the result
is (up to the final re-sort) the profile with that entry replaced by its
touched value, whose confusion_score is max(existing, new) and whose
last_confused is overwritten exactly when the new score is strictly greater
than the existing one; when the concept is new, the observation is
appended. -/
theorem wp_merge_tracked_max_new_append (now : String) (wps : List WeakPoint)
    (o : WeakPoint) (hnd : (conceptsOf wps).Nodup) :
    (o.concept ∈ conceptsOf wps →
      List.Perm (update_weak_points now wps [o])
        (wps.map (fun w => if w.concept = o.concept then touchWeakPoint now o w else w))) ∧
    (o.concept ∉ conceptsOf wps →
      List.Perm (update_weak_points now wps [o]) (wps ++ [o])) ∧
    (∀ w : WeakPoint,
      (touchWeakPoint now o w).confusion_score = max w.confusion_score o.confusion_score) ∧
    (∀ w : WeakPoint, w.confusion_score < o.confusion_score →
      (touchWeakPoint now o w).last_confused = some (o.last_confused.getD now)) ∧
    (∀ w : WeakPoint, ¬ w.confusion_score < o.confusion_score →
      (touchWeakPoint now o w).last_confused = w.last_confused) :=
  ⟨fun h => merge_single_tracked now wps o hnd h,
   fun h => merge_single_new now wps o h,
   fun w => touch_score now o w,
   fun w h => touch_last_confused_lt now o w h,
   fun w h => touch_last_confused_ge now o w h⟩

/-- Counterexample to claim C2 as stated: with an existing entry of score 5
and timestamp t1, an observation of equal score 5 and timestamp t2 satisfies
new-score ≥ existing-score, yet the stored entry keeps t1 — the code updates
last_confused only on a strict increase (crud.py 247). -/
theorem wp_merge_tie_keeps_old_timestamp :
    update_weak_points "2025-01-01"
        [⟨"recursion", 5, some "t1", none, none⟩]
        [⟨"recursion", 5, some "t2", none, none⟩] =
      [⟨"recursion", 5, some "t1", none, none⟩] ∧
    (5 : Int) ≤ 5 ∧ some "t2" ≠ some "t1" := by decide

/-- Witness for the C2 theorem at a concrete tracked concept. -/
theorem wp_merge_tracked_witness :
    List.Perm
      (update_weak_points "now" [⟨"a", 3, none, none, none⟩] [⟨"a", 7, some "t", none, none⟩])
      (List.map
        (fun w => if w.concept = WeakPoint.concept ⟨"a", 7, some "t", none, none⟩ then
            touchWeakPoint "now" ⟨"a", 7, some "t", none, none⟩ w else w)
        [⟨"a", 3, none, none, none⟩]) :=
  (wp_merge_tracked_max_new_append "now" [⟨"a", 3, none, none, none⟩]
    ⟨"a", 7, some "t", none, none⟩ (by decide)).1 (by decide)

/-- Claim C3, corrected.  After any weak-point merge batch the stored list is
sorted descending by confusion_score; and when the starting profile has
unique concepts and the batch has pairwise-distinct concepts, the result has
no duplicate concepts. -/
theorem wp_batch_sorted_and_nodup (now : String) (wps obs : List WeakPoint) :
    List.Sorted wpGE (update_weak_points now wps obs) ∧
    ((conceptsOf wps).Nodup → (conceptsOf obs).Nodup →
      (conceptsOf (update_weak_points now wps obs)).Nodup) :=
  ⟨sorted_update_weak_points now wps obs, nodup_update_weak_points now wps obs⟩

/-- Counterexample to claim C3 as stated: a batch that repeats a concept not
yet tracked appends it twice, because the concept dict built on crud.py 239
is never extended by the appends — the resulting list has concepts
["c", "c"]. -/
theorem wp_batch_duplicate_concepts :
    conceptsOf (update_weak_points "t" []
        [⟨"c", 5, none, none, none⟩, ⟨"c", 3, none, none, none⟩]) = ["c", "c"] ∧
    ¬ (conceptsOf (update_weak_points "t" []
        [⟨"c", 5, none, none, none⟩, ⟨"c", 3, none, none, none⟩])).Nodup := by decide

/-- Witness for the C3 theorem on a concrete profile and batch. -/
theorem wp_batch_sorted_and_nodup_witness :
    (conceptsOf (update_weak_points "t" [⟨"b", 1, none, none, none⟩]
      [⟨"x", 5, none, none, none⟩])).Nodup :=
  (wp_batch_sorted_and_nodup "t" [⟨"b", 1, none, none, none⟩]
    [⟨"x", 5, none, none, none⟩]).2 (by decide) (by decide)

/-- Claim C4, corrected to the part that holds: the weak-point merge is
idempotent across batches — merging the same observation again in a second
call leaves the stored list unchanged (for a profile with unique
concepts). -/
theorem wp_merge_idempotent_across_batches (now : String) (wps : List WeakPoint)
    (o : WeakPoint) (hnd : (conceptsOf wps).Nodup) :
    update_weak_points now (update_weak_points now wps [o]) [o] =
      update_weak_points now wps [o] :=
  idempotent_second_merge now wps o hnd

/-- Counterexample to claim C4 as stated: two observations for the same
concept with equal scores but different last_confused timestamps do not
commute — whichever is merged first wins, so the merge is not commutative. -/
theorem wp_merge_not_commutative :
    update_weak_points "n" (update_weak_points "n" [] [⟨"c", 5, some "t1", none, none⟩])
        [⟨"c", 5, some "t2", none, none⟩] ≠
      update_weak_points "n" (update_weak_points "n" [] [⟨"c", 5, some "t2", none, none⟩])
        [⟨"c", 5, some "t1", none, none⟩] := by decide

/-- Witness for the C4 theorem at a concrete observation. -/
theorem wp_merge_idempotent_witness :
    update_weak_points "n" (update_weak_points "n" [] [⟨"a", 4, some "t", none, none⟩])
        [⟨"a", 4, some "t", none, none⟩] =
      update_weak_points "n" [] [⟨"a", 4, some "t", none, none⟩] :=
  wp_merge_idempotent_across_batches "n" [] ⟨"a", 4, some "t", none, none⟩ (by decide)

lemma mem_kgSet : ∀ (kg : KnowledgeGraph) (c : String) (e : KGEntry)
    (q : String × KGEntry), q ∈ kgSet kg c e → q = (c, e) ∨ q ∈ kg := by
  intro kg c e
  induction kg with
  | nil =>
    intro q hq
    simp only [kgSet, List.mem_singleton] at hq
    exact Or.inl hq
  | cons p kg ih =>
    intro q hq
    unfold kgSet at hq
    by_cases hp : p.1 == c
    · rw [if_pos hp] at hq
      rcases List.mem_cons.mp hq with h | h
      · exact Or.inl h
      · exact Or.inr (List.mem_cons_of_mem p h)
    · rw [if_neg hp] at hq
      rcases List.mem_cons.mp hq with h | h
      · exact Or.inr (h ▸ List.mem_cons_self p kg)
      · rcases ih q h with h2 | h2
        · exact Or.inl h2
        · exact Or.inr (List.mem_cons_of_mem p h2)

lemma kgFind_inRange (kg : KnowledgeGraph) (c : String) (e : KGEntry)
    (hr : kgInRange kg) (h : kgFind kg c = some e) : kgEntryInRange e := by
  unfold kgFind at h
  cases hf : kg.find? (fun p => p.1 == c) with
  | none => rw [hf] at h; simp at h
  | some q =>
    rw [hf] at h
    simp only [Option.map_some'] at h
    have hm := List.mem_of_find?_eq_some hf
    rw [← Option.some.inj h]
    exact hr q hm

lemma initKGEntry_inRange (u : KGUpdate) : kgEntryInRange (initKGEntry u) :=
  ⟨le_refl 0, zero_le_one, le_refl 0, by show (0 : Int) ≤ 100; decide⟩

lemma applyKGUpdate_inRange (u : KGUpdate) (e : KGEntry)
    (h : kgEntryInRange e) : kgEntryInRange (applyKGUpdate u e) := by
  obtain ⟨hm0, hm1, hc0, hc1⟩ := h
  refine ⟨?_, ?_, ?_, ?_⟩ <;>
    simp only [applyKGUpdate] <;>
    [cases u.mastery_delta; cases u.mastery_delta; cases u.confusion_delta;
      cases u.confusion_delta] <;>
    simp only [] <;>
    first
      | exact hm0
      | exact hm1
      | exact hc0
      | exact hc1
      | exact le_max_left 0 _
      | exact max_le zero_le_one (min_le_left _ _)
      | exact max_le (by norm_num) (min_le_left _ _)

lemma kgInRange_update (kg : KnowledgeGraph) (u : KGUpdate)
    (h : kgInRange kg) : kgInRange (update_knowledge_graph kg u) := by
  unfold update_knowledge_graph
  have h1 : kgInRange (if (kgFind kg u.concept).isSome then kg
      else kgSet kg u.concept (initKGEntry u)) := by
    split
    · exact h
    · intro q hq
      rcases mem_kgSet kg u.concept (initKGEntry u) q hq with h2 | h2
      · rw [h2]; exact initKGEntry_inRange u
      · exact h q h2
  generalize (if (kgFind kg u.concept).isSome then kg
      else kgSet kg u.concept (initKGEntry u)) = kg1 at h1 ⊢
  unfold kgUpsert
  cases he : kgFind kg1 u.concept with
  | none => exact h1
  | some e =>
    have her : kgEntryInRange e := kgFind_inRange kg1 u.concept e h1 he
    intro q hq
    rcases mem_kgSet kg1 u.concept _ q hq with h2 | h2
    · rw [h2]
      exact applyKGUpdate_inRange u e her
    · exact h1 q h2

/-- Claim C5, confirmed.  For every sequence of knowledge-graph updates with
arbitrary mastery and confusion deltas, applied from the empty graph a fresh
profile starts with, every entry of the stored graph keeps mastery_level in
[0,1] and confusion_score in [0,100] at every step (every prefix of the
sequence); the clamps are saturating max/min, not wraparound. -/
theorem kg_scores_stay_in_range :
    ∀ (us : List KGUpdate) (n : Nat),
      kgInRange ((us.take n).foldl update_knowledge_graph []) := by
  have hfold : ∀ (l : List KGUpdate) (kg : KnowledgeGraph), kgInRange kg →
      kgInRange (l.foldl update_knowledge_graph kg) := by
    intro l
    induction l with
    | nil => intro kg h; exact h
    | cons u l ih =>
      intro kg h
      exact ih _ (kgInRange_update kg u h)
  intro us n
  exact hfold (us.take n) [] (by intro q hq; simp at hq)

lemma increment_avg_formula (st : Statistics) (i q d : Bool) (v : ℚ) (now : String)
    (h : 0 ≤ st.total_sessions) :
    (increment_profile_statistics st i q d (some v) now).avg_session_length =
      pyRound2 ((st.avg_session_length * st.total_sessions + v) / (st.total_sessions + 1)) := by
  simp only [increment_profile_statistics]
  by_cases h1 : (0 : Int) < st.total_sessions
  · rw [if_pos (by omega)]
    congr 1
    push_cast
    ring
  · have h0 : st.total_sessions = 0 := le_antisymm (by omega) h
    rw [if_neg (by omega)]
    congr 1
    rw [h0]
    push_cast
    norm_num

lemma pyRound2_intCast (n : Int) : pyRound2 ((n : ℚ)) = n := by
  unfold pyRound2 roundHalfEven
  have h1 : ((n : ℚ)) * 100 = ((100 * n : Int) : ℚ) := by push_cast; ring
  rw [h1, Int.floor_intCast]
  rw [if_pos (by rw [sub_self]; norm_num)]
  push_cast
  field_simp

/-- Claim C6, corrected.  When a session length is supplied, the stored
avg_session_length is the running weighted mean (old_avg × old_count +
new_value) / (old_count + 1) — with old_count read before the session
increment — rounded half-to-even to two decimal places; the three examples of
the spec (12, 15, and first-session 20) hold exactly. -/
theorem avg_session_length_running_mean :
    (∀ (st : Statistics) (i q d : Bool) (v : ℚ) (now : String),
        0 ≤ st.total_sessions →
        (increment_profile_statistics st i q d (some v) now).avg_session_length =
          pyRound2 ((st.avg_session_length * st.total_sessions + v) /
            (st.total_sessions + 1))) ∧
    (increment_profile_statistics ⟨4, 0, 0, 10, none, none⟩ true false false
        (some 20) "t").avg_session_length = 12 ∧
    (increment_profile_statistics ⟨1, 0, 0, 10, none, none⟩ true false false
        (some 20) "t").avg_session_length = 15 ∧
    (increment_profile_statistics ⟨0, 0, 0, 0, none, none⟩ true false false
        (some 20) "t").avg_session_length = 20 := by
  refine ⟨increment_avg_formula, ?_, ?_, ?_⟩
  · rw [increment_avg_formula _ true false false 20 "t" (by decide)]
    rw [show ((⟨4, 0, 0, 10, none, none⟩ : Statistics).avg_session_length *
        ((⟨4, 0, 0, 10, none, none⟩ : Statistics).total_sessions : ℚ) + 20) /
        (((⟨4, 0, 0, 10, none, none⟩ : Statistics).total_sessions : ℚ) + 1) =
        ((12 : Int) : ℚ) by push_cast; norm_num]
    rw [pyRound2_intCast]
    norm_num
  · rw [increment_avg_formula _ true false false 20 "t" (by decide)]
    rw [show ((⟨1, 0, 0, 10, none, none⟩ : Statistics).avg_session_length *
        ((⟨1, 0, 0, 10, none, none⟩ : Statistics).total_sessions : ℚ) + 20) /
        (((⟨1, 0, 0, 10, none, none⟩ : Statistics).total_sessions : ℚ) + 1) =
        ((15 : Int) : ℚ) by push_cast; norm_num]
    rw [pyRound2_intCast]
    norm_num
  · rw [increment_avg_formula _ true false false 20 "t" (by decide)]
    rw [show ((⟨0, 0, 0, 0, none, none⟩ : Statistics).avg_session_length *
        ((⟨0, 0, 0, 0, none, none⟩ : Statistics).total_sessions : ℚ) + 20) /
        (((⟨0, 0, 0, 0, none, none⟩ : Statistics).total_sessions : ℚ) + 1) =
        ((20 : Int) : ℚ) by push_cast; norm_num]
    rw [pyRound2_intCast]
    norm_num

/-- Counterexample to claim C6 as stated: with old_count = 0 and session
length 1/3, the stored average is round(1/3, 2) = 0.33, not the exact value
1/3 the claim requires (crud.py 156 rounds to two decimals). -/
theorem avg_stored_value_is_rounded :
    (increment_profile_statistics ⟨0, 0, 0, 0, none, none⟩ true false false
        (some (1/3)) "t").avg_session_length = 33/100 ∧
    (33 : ℚ)/100 ≠ 1/3 := by
  constructor
  · rw [increment_avg_formula _ true false false (1/3) "t" (by decide)]
    rw [show ((⟨0, 0, 0, 0, none, none⟩ : Statistics).avg_session_length *
        ((⟨0, 0, 0, 0, none, none⟩ : Statistics).total_sessions : ℚ) + 1/3) /
        (((⟨0, 0, 0, 0, none, none⟩ : Statistics).total_sessions : ℚ) + 1) =
        1/3 by push_cast; norm_num]
    unfold pyRound2 roundHalfEven
    have hf : ⌊(1/3 : ℚ) * 100⌋ = 33 := by
      rw [Int.floor_eq_iff]
      constructor <;> norm_num
    rw [hf, if_pos (by push_cast; norm_num)]
    push_cast
    norm_num
  · norm_num

/-- Witness for the C6 theorem at old_count = 2, old_avg = 10, value 11. -/
theorem avg_running_mean_witness :
    (0 : Int) ≤ (⟨2, 0, 0, 10, none, none⟩ : Statistics).total_sessions ∧
    (increment_profile_statistics ⟨2, 0, 0, 10, none, none⟩ true false false
        (some 11) "t").avg_session_length =
      pyRound2 (((⟨2, 0, 0, 10, none, none⟩ : Statistics).avg_session_length *
          ((⟨2, 0, 0, 10, none, none⟩ : Statistics).total_sessions : ℚ) + 11) /
        (((⟨2, 0, 0, 10, none, none⟩ : Statistics).total_sessions : ℚ) + 1)) :=
  ⟨by decide,
   avg_session_length_running_mean.1 ⟨2, 0, 0, 10, none, none⟩ true false false 11 "t"
     (by decide)⟩

/-- Claim C1, corrected to the part that holds: when the language-model call
returns a response that fails to parse as JSON, the summary extractor returns
the deterministic default summary instead of raising. -/
theorem summarizer_parse_failure_default (messages : List Message) (keep : Nat)
    (response : String) (parse : String → Option SummaryData)
    (h : parse response = none) :
    generate_summary messages keep (.ok response) parse =
      .ok (get_default_summary messages) := by
  simp [generate_summary, h]

/-- Witness for the C1 theorem on a concrete non-JSON response. -/
theorem summarizer_parse_failure_default_witness :
    generate_summary [] 5 (.ok "not json") (fun _ => none) =
      .ok (get_default_summary []) :=
  summarizer_parse_failure_default [] 5 "not json" (fun _ => none) rfl

/-- Counterexample to claim C1 as stated: a failure of the language-model
call itself is outside the try block of summarizer_agent.py 180-193 (which
catches only JSONDecodeError), so it propagates to the caller instead of
producing the default summary. -/
theorem summarizer_call_failure_propagates :
    generate_summary [] 5 (.error "llm unreachable") (fun _ => none) =
      .error "llm unreachable" := rfl

/-- Claim C7, confirmed.  Retrieval never fails its caller: with zero
summaries in the lookback window it returns the basic profile-only context
with relevant_memories = [] and without invoking the language model, and on a
language-model call failure or JSON-parse failure it falls back to that same
basic context with relevant_memories = []. -/
theorem retrieval_degrades_to_basic_context (profile : Option Profile)
    (summaries : List SummaryRow) (llm : LlmOutcome)
    (parse : String → Option RetrievalResult) :
    (summaries = [] →
      generate_context profile (formatSummaries summaries) llm parse =
        ⟨basicResult profile, false⟩) ∧
    (∀ e, llm = .error e →
      (generate_context profile (formatSummaries summaries) llm parse).result =
        basicResult profile) ∧
    (∀ s, llm = .ok s → parse s = none →
      (generate_context profile (formatSummaries summaries) llm parse).result =
        basicResult profile) ∧
    (basicResult profile).relevant_memories = [] := by
  refine ⟨?_, ?_, ?_, rfl⟩
  · intro h
    subst h
    have hfmt : formatSummaries ([] : List SummaryRow) = "暂无历史记忆" := rfl
    rw [hfmt]
    unfold generate_context
    rw [if_pos (by decide)]
  · intro e he
    subst he
    unfold generate_context
    split
    · rfl
    · rfl
  · intro s hs hp
    subst hs
    unfold generate_context
    split
    · rfl
    · simp [hp]

/-- Witness for the C7 theorem: the empty-summaries path, the call-failure
path and the parse-failure path at concrete inputs. -/
theorem retrieval_degrades_witness :
    (generate_context none (formatSummaries []) (.error "boom") (fun _ => none) =
      ⟨basicResult none, false⟩) ∧
    ((generate_context none (formatSummaries [⟨"s1", none, "topic", [], [], []⟩])
        (.error "boom") (fun _ => none)).result = basicResult none) ∧
    ((generate_context none (formatSummaries [⟨"s1", none, "topic", [], [], []⟩])
        (.ok "resp") (fun _ => none)).result = basicResult none) :=
  ⟨(retrieval_degrades_to_basic_context none [] (.error "boom") (fun _ => none)).1 rfl,
   (retrieval_degrades_to_basic_context none [⟨"s1", none, "topic", [], [], []⟩]
      (.error "boom") (fun _ => none)).2.1 "boom" rfl,
   (retrieval_degrades_to_basic_context none [⟨"s1", none, "topic", [], [], []⟩]
      (.ok "resp") (fun _ => none)).2.2.1 "resp" rfl rfl⟩

/-- Claim C8, corrected.  The retrieval operation only fetches the profile:
the returned result carries exactly the stored profile when one exists, and
an empty profile (with empty weak points) when none exists — no profile is
created on this path. -/
theorem retrieval_profile_fetch_no_create (store : Store) (uid : String)
    (summaries : List SummaryRow) (llm : LlmOutcome)
    (parse : String → Option RetrievalResult) :
    (retrievalProcess store uid summaries llm parse).user_profile =
      get_user_profile store uid ∧
    (∀ p, get_user_profile store uid = some p →
      (retrievalProcess store uid summaries llm parse).user_profile = some p) ∧
    (get_user_profile store uid = none →
      (retrievalProcess store uid summaries llm parse).user_profile = none ∧
      (retrievalProcess store uid summaries llm parse).weak_points = []) := by
  refine ⟨rfl, ?_, ?_⟩
  · intro p hp
    simp [retrievalProcess, hp]
  · intro hp
    constructor
    · simp [retrievalProcess, hp]
    · simp [retrievalProcess, hp, profileWeakPoints]

/-- Counterexample to claim C8 as stated: for a user with no stored profile,
the retrieval result does not contain the lazily-created default profile —
process uses get_user_profile with an empty-dict fallback
(retrieval_agent.py 66-67) and never calls get_or_create_profile. -/
theorem retrieval_missing_profile_not_created :
    (retrievalProcess [] "u1" [] (.error "e") (fun _ => none)).user_profile = none ∧
    (retrievalProcess [] "u1" [] (.error "e") (fun _ => none)).user_profile ≠
      some (create_user_profile "u1") := by
  refine ⟨rfl, ?_⟩
  intro h
  simp [retrievalProcess, get_user_profile] at h

/-- Witness for the C8 theorem on a store with one profile and on an unknown
user. -/
theorem retrieval_profile_fetch_witness :
    ((retrievalProcess [("u", create_user_profile "u")] "u" [] (.error "e")
        (fun _ => none)).user_profile = some (create_user_profile "u")) ∧
    ((retrievalProcess [] "nobody" [] (.error "e")
        (fun _ => none)).user_profile = none) :=
  ⟨(retrieval_profile_fetch_no_create [("u", create_user_profile "u")] "u" []
      (.error "e") (fun _ => none)).2.1 (create_user_profile "u") rfl,
   ((retrieval_profile_fetch_no_create [] "nobody" [] (.error "e")
      (fun _ => none)).2.2 rfl).1⟩

lemma get_storePut_same : ∀ (s : Store) (uid : String) (p : Profile),
    get_user_profile (storePut s uid p) uid = some p := by
  intro s uid p
  induction s with
  | nil => simp [storePut, get_user_profile]
  | cons q s ih =>
    unfold storePut
    by_cases hq : q.1 == uid
    · rw [if_pos hq]
      simp [get_user_profile]
    · rw [if_neg hq]
      unfold get_user_profile
      rw [List.find?_cons_of_neg _ (by simpa using hq)]
      exact ih

lemma dictGet_dictSet_ne : ∀ (d : Dict) (x k : String) (v : PrefVal),
    (x == k) = false → dictGet (dictSet d x v) k = dictGet d k := by
  intro d x k v hx
  induction d with
  | nil => simp [dictSet, dictGet, List.find?, hx]
  | cons q d ih =>
    unfold dictSet
    by_cases hq : (q.1 == x) = true
    · rw [if_pos hq]
      have hq1 : q.1 = x := by simpa using hq
      simp [dictGet, List.find?, hx, hq1]
    · rw [if_neg hq]
      by_cases hk : (q.1 == k) = true
      · simp [dictGet, List.find?, hk]
      · simp only [Bool.not_eq_true] at hk
        simp only [dictGet, List.find?, hk]
        exact ih

lemma dictGet_dictUpdate_none : ∀ (delta d : Dict) (k : String),
    dictGet delta k = none → dictGet (dictUpdate d delta) k = dictGet d k := by
  intro delta
  induction delta with
  | nil => intro d k _; rfl
  | cons q δ ih =>
    intro d k h
    simp only [dictGet, Option.map_eq_none', List.find?_eq_none] at h
    have h1 : (q.1 == k) = false := by
      have h2 := h q (List.mem_cons_self q δ)
      simpa using h2
    have h2 : dictGet δ k = none := by
      simp only [dictGet, Option.map_eq_none', List.find?_eq_none]
      intro x hx
      exact h x (List.mem_cons_of_mem q hx)
    show dictGet (dictUpdate (dictSet d q.1 q.2) δ) k = dictGet d k
    rw [ih (dictSet d q.1 q.2) k h2, dictGet_dictSet_ne d q.1 k q.2 h1]

/-- Claim C9, confirmed.  The inference pass overwrites the stored profile
preferences iff the inferred confidence is strictly greater than 0.5: at or
below the gate (including the empty dict a failed inference produces, whose
confidence defaults to 0) the stored preferences are untouched; above it the
inferred dict is merged last-write-wins per key, and keys absent from the
inferred dict keep their stored values. -/
theorem preference_inference_gate (store : Store) (uid : String) (inferred : Dict)
    (p : Profile) (hp : get_user_profile store uid = some p) :
    (getConfidence inferred ≤ 1/2 →
      get_user_profile (profileAgentProcess store uid inferred) uid = some p) ∧
    (1/2 < getConfidence inferred →
      get_user_profile (profileAgentProcess store uid inferred) uid =
        some { p with preferences := dictUpdate p.preferences inferred }) ∧
    (∀ k, dictGet inferred k = none →
      dictGet (dictUpdate p.preferences inferred) k = dictGet p.preferences k) := by
  refine ⟨?_, ?_, fun k hk => dictGet_dictUpdate_none inferred p.preferences k hk⟩
  · intro hc
    simp only [profileAgentProcess, get_or_create_profile, hp]
    rw [if_neg (not_lt.mpr hc)]
    exact hp
  · intro hc
    simp only [profileAgentProcess, get_or_create_profile, hp]
    rw [if_pos hc]
    simp only [update_profile_preferences, hp]
    exact get_storePut_same store uid _

/-- Witness for the C9 theorem: a failed inference (confidence 0) leaves the
profile unchanged, and confidence 1 applies the overwrite. -/
theorem preference_inference_gate_witness :
    (get_user_profile
        (profileAgentProcess [("u", create_user_profile "u")] "u" []) "u" =
      some (create_user_profile "u")) ∧
    (get_user_profile
        (profileAgentProcess [("u", create_user_profile "u")] "u"
          [("confidence", PrefVal.numV 1)]) "u" =
      some { create_user_profile "u" with
              preferences := dictUpdate (create_user_profile "u").preferences
                [("confidence", PrefVal.numV 1)] }) :=
  ⟨(preference_inference_gate [("u", create_user_profile "u")] "u" []
      (create_user_profile "u") rfl).1 (le_of_lt one_half_pos),
   (preference_inference_gate [("u", create_user_profile "u")] "u"
      [("confidence", PrefVal.numV 1)] (create_user_profile "u") rfl).2.1
     one_half_lt_one⟩

/-- Claim C10, confirmed.  Every summary produced by the extractor carries
message_count equal to the number of conversation turns, and the
consolidation statistics update supplies exactly that value as the session
length, so the stored avg_session_length is the (rounded) running mean of
per-session message counts. -/
theorem consolidation_session_length_is_message_count
    (messages : List Message) (keep : Nat) (llm : LlmOutcome)
    (parse : String → Option SummaryData) (s : SummaryData)
    (st : Statistics) (now : String)
    (h : generate_summary messages keep llm parse = .ok s) :
    s.message_count = (messages.length : Int) ∧
    update_user_profile_statistics st s now =
      increment_profile_statistics st true
        (0 < s.resolved_questions.length + s.unresolved_questions.length) true
        (some ((messages.length : Int) : ℚ)) now ∧
    (0 ≤ st.total_sessions →
      (update_user_profile_statistics st s now).avg_session_length =
        pyRound2 ((st.avg_session_length * st.total_sessions +
            ((messages.length : Int) : ℚ)) / (st.total_sessions + 1))) := by
  have hmc : s.message_count = (messages.length : Int) := by
    cases llm with
    | error e => simp [generate_summary] at h
    | ok response =>
      cases hp : parse response with
      | some s0 =>
        simp only [generate_summary, hp, Except.ok.injEq] at h
        rw [← h]
      | none =>
        simp only [generate_summary, hp, Except.ok.injEq] at h
        rw [← h]
        rfl
  have heq : update_user_profile_statistics st s now =
      increment_profile_statistics st true
        (0 < s.resolved_questions.length + s.unresolved_questions.length) true
        (some ((messages.length : Int) : ℚ)) now := by
    unfold update_user_profile_statistics
    rw [hmc]
  refine ⟨hmc, heq, ?_⟩
  intro hts
  rw [heq]
  exact increment_avg_formula st true
    (0 < s.resolved_questions.length + s.unresolved_questions.length) true
    ((messages.length : Int) : ℚ) now hts

/-- Witness for the C10 theorem on the fallback summary of an empty
conversation. -/
theorem consolidation_session_length_witness :
    ((get_default_summary []).message_count = ((([] : List Message)).length : Int)) ∧
    (update_user_profile_statistics defaultStatistics (get_default_summary []) "t" =
      increment_profile_statistics defaultStatistics true
        (0 < (get_default_summary []).resolved_questions.length +
          (get_default_summary []).unresolved_questions.length) true
        (some (((([] : List Message)).length : Int) : ℚ)) "t") :=
  ⟨(consolidation_session_length_is_message_count [] 5 (.ok "r") (fun _ => none)
      (get_default_summary []) defaultStatistics "t" rfl).1,
   (consolidation_session_length_is_message_count [] 5 (.ok "r") (fun _ => none)
      (get_default_summary []) defaultStatistics "t" rfl).2.1⟩

end FastLearn
